import Mathlib

/-!
Shallow embedding of LibAFL's comparison-trace maps
(`src/crates/libafl_targets/src/cmps/mod.rs`).

Machine bytes are `Fin 256`, 16-bit fields are `Fin 65536`.  The Rust
`union` payloads (`CmpLogVals`, `AflppCmpLogVals`) are embedded as one
byte store per site; the instruction view and the routine view are byte
decodings of that store, exactly as the two union fields alias the same
memory on a little-endian target.  A Rust `panic!` (including an
out-of-bounds slot index) is embedded as `DecodeResult.panicked`.
-/

namespace LibAFLCmps

/-- A machine byte. -/
abbrev U8 := Fin 256

/-- A 16-bit machine word. -/
abbrev U16 := Fin 65536

/-- Modelled from the spec: `CMPLOG_MAP_W`, the site count of the constants
contract, is defined at the crate root (not part of the staged sources); the
default build value is 65536. -/
abbrev CMPLOG_MAP_W : Nat := 65536

/-- Modelled from the spec: `CMPLOG_MAP_H`, the instruction slot capacity of
the constants contract, is defined at the crate root (not part of the staged
sources); the default build value is 32. -/
abbrev CMPLOG_MAP_H : Nat := 32

/-- The size of a logged routine argument in bytes (`CMPLOG_RTN_LEN`). -/
abbrev CMPLOG_RTN_LEN : Nat := 32

/-- Byte size of `CmpLogInstruction` = `repr(C)` `(u64, u64, u8)`:
8 + 8 + 1 padded to alignment 8, hence 24. -/
abbrev sizeOfCmpLogInstruction : Nat := 24

/-- Byte size of `CmpLogRoutine` = `([u8; 32], [u8; 32])`, hence 64. -/
abbrev sizeOfCmpLogRoutine : Nat := 64

/-- The height of a cmplog routine map (`CMPLOG_MAP_RTN_H`):
`(CMPLOG_MAP_H * size_of::<CmpLogInstruction>()) / size_of::<CmpLogRoutine>()`. -/
abbrev CMPLOG_MAP_RTN_H : Nat :=
  CMPLOG_MAP_H * sizeOfCmpLogInstruction / sizeOfCmpLogRoutine

/-- Byte size of `AflppCmpLogOperands` = `repr(C, packed)` of eight `u64`
limbs plus `unused: [u8; 8]`, hence 72. -/
abbrev sizeOfAflppCmpLogOperands : Nat := 72

/-- Byte size of `AflppCmpLogFnOperands` = `repr(C, packed)` of two
`[u8; 32]` buffers, two length bytes and `unused: [u8; 6]`, hence 72. -/
abbrev sizeOfAflppCmpLogFnOperands : Nat := 72

/-- The height of the extended routine map (`CMPLOG_MAP_RTN_EXTENDED_H`):
`CMPLOG_MAP_H * size_of::<AflppCmpLogOperands>() / size_of::<AflppCmpLogFnOperands>()`. -/
abbrev CMPLOG_MAP_RTN_EXTENDED_H : Nat :=
  CMPLOG_MAP_H * sizeOfAflppCmpLogOperands / sizeOfAflppCmpLogFnOperands

/-- `CmpLog` instruction kind (`CMPLOG_KIND_INS`). -/
abbrev CMPLOG_KIND_INS : Nat := 0

/-- `CmpLog` routine kind (`CMPLOG_KIND_RTN`). -/
abbrev CMPLOG_KIND_RTN : Nat := 1

/-- Per-site byte size of the compact payload union:
`CMPLOG_MAP_H * sizeOfCmpLogInstruction = CMPLOG_MAP_RTN_H * sizeOfCmpLogRoutine = 768`. -/
abbrev cmpLogSiteBytes : Nat := 768

/-- Per-site byte size of the wire payload union:
`CMPLOG_MAP_H * 72 = CMPLOG_MAP_RTN_EXTENDED_H * 72 = 2304`. -/
abbrev aflppSiteBytes : Nat := 2304

/-- Read one byte of a fixed-size byte store at a `Nat` offset; offsets used
by the decoders are always in range, the `0` default is dead code. -/
def getByte {n : Nat} (bs : Fin n → U8) (i : Nat) : U8 :=
  if h : i < n then bs ⟨i, h⟩ else 0

/-- Little-endian read of a `u64` field at byte offset `off`, as the target
CPU does when the union payload is accessed through the operand view. -/
def readLE64 {n : Nat} (bs : Fin n → U8) (off : Nat) : Nat :=
  (getByte bs off).val + 256 * (getByte bs (off + 1)).val +
    65536 * (getByte bs (off + 2)).val + 16777216 * (getByte bs (off + 3)).val +
    4294967296 * (getByte bs (off + 4)).val +
    1099511627776 * (getByte bs (off + 5)).val +
    281474976710656 * (getByte bs (off + 6)).val +
    72057594037927936 * (getByte bs (off + 7)).val

theorem readLE64_lt {n : Nat} (bs : Fin n → U8) (off : Nat) :
    readLE64 bs off < 18446744073709551616 := by
  have h0 := (getByte bs off).isLt
  have h1 := (getByte bs (off + 1)).isLt
  have h2 := (getByte bs (off + 2)).isLt
  have h3 := (getByte bs (off + 3)).isLt
  have h4 := (getByte bs (off + 4)).isLt
  have h5 := (getByte bs (off + 5)).isLt
  have h6 := (getByte bs (off + 6)).isLt
  have h7 := (getByte bs (off + 7)).isLt
  unfold readLE64
  omega

/-- The `CmplogBytes` value carried by routine results: a 32-byte buffer
tagged with a length. -/
structure CmplogBytes where
  buf : Fin 32 → U8
  len : U8
deriving DecidableEq

/-- `CmplogBytes::from_buf_and_len`. -/
def CmplogBytes.from_buf_and_len (buf : Fin 32 → U8) (len : U8) : CmplogBytes :=
  ⟨buf, len⟩

/-- The `CmpValues` result enum of the consumer interface. -/
inductive CmpValues where
  | U8 (v : Fin 256 × Fin 256 × Bool)
  | U16 (v : Fin 65536 × Fin 65536 × Bool)
  | U32 (v : Fin 4294967296 × Fin 4294967296 × Bool)
  | U64 (v : Fin 18446744073709551616 × Fin 18446744073709551616 × Bool)
  | Bytes (v : CmplogBytes × CmplogBytes)
deriving DecidableEq

/-- Result of one `values_of` call: `ok v` embeds a normal `Option` return,
`panicked` embeds a Rust panic (invalid shape, or an out-of-range index). -/
inductive DecodeResult where
  | panicked
  | ok (v : Option CmpValues)
deriving DecidableEq

/-- The header for `CmpLog` hits (`CmpLogHeader`): `hits: u16`, `shape: u8`,
`kind: u8`. -/
structure CmpLogHeader where
  hits : U16
  shape : U8
  kind : U8
deriving DecidableEq

/-- The compact map (`CmpLogMap`): one header per site plus the
`CmpLogVals` union payload, embedded as 768 bytes per site
(= `CMPLOG_MAP_H` instruction records of 24 bytes
= `CMPLOG_MAP_RTN_H` routine records of 64 bytes). -/
structure CmpLogMap where
  headers : Fin CMPLOG_MAP_W → CmpLogHeader
  vals : Fin CMPLOG_MAP_W → Fin cmpLogSiteBytes → U8

/-- Field `.0` of `vals.operands[idx][execution]`: the first raw `u64`
operand, at byte offset `execution * 24` of the site's payload. -/
def CmpLogMap.op0 (m : CmpLogMap) (idx : Fin CMPLOG_MAP_W) (execution : Nat) : Nat :=
  readLE64 (m.vals idx) (execution * 24)

/-- Field `.1` of `vals.operands[idx][execution]`: the second raw `u64`
operand, at byte offset `execution * 24 + 8`. -/
def CmpLogMap.op1 (m : CmpLogMap) (idx : Fin CMPLOG_MAP_W) (execution : Nat) : Nat :=
  readLE64 (m.vals idx) (execution * 24 + 8)

/-- Field `.2` of `vals.operands[idx][execution]`: the `u8` is-equal flag
byte, at byte offset `execution * 24 + 16`. -/
def CmpLogMap.opFlag (m : CmpLogMap) (idx : Fin CMPLOG_MAP_W) (execution : Nat) : Nat :=
  (getByte (m.vals idx) (execution * 24 + 16)).val

/-- Buffer `.0` of `vals.routines[idx][execution]`: 32 bytes at offset
`execution * 64`. -/
def CmpLogMap.rtn0 (m : CmpLogMap) (idx : Fin CMPLOG_MAP_W) (execution : Nat) :
    Fin 32 → U8 :=
  fun i => getByte (m.vals idx) (execution * 64 + i.val)

/-- Buffer `.1` of `vals.routines[idx][execution]`: 32 bytes at offset
`execution * 64 + 32`. -/
def CmpLogMap.rtn1 (m : CmpLogMap) (idx : Fin CMPLOG_MAP_W) (execution : Nat) :
    Fin 32 → U8 :=
  fun i => getByte (m.vals idx) (execution * 64 + 32 + i.val)

/-- `CmpMap::executions_for` for `CmpLogMap`: the raw hit counter. -/
def CmpLogMap.executions_for (m : CmpLogMap) (idx : Fin CMPLOG_MAP_W) : Nat :=
  (m.headers idx).hits.val

/-- `CmpMap::usable_executions_for` for `CmpLogMap`. -/
def CmpLogMap.usable_executions_for (m : CmpLogMap) (idx : Fin CMPLOG_MAP_W) : Nat :=
  if (m.headers idx).kind.val = CMPLOG_KIND_INS then
    if m.executions_for idx < CMPLOG_MAP_H then m.executions_for idx
    else CMPLOG_MAP_H
  else
    if m.executions_for idx < CMPLOG_MAP_RTN_H then m.executions_for idx
    else CMPLOG_MAP_RTN_H

/-- `CmpMap::values_of` for `CmpLogMap`.  The shape is matched first, as in
the source; the operand arms then index `operands[idx][execution]`, which
panics when `execution` is not below `CMPLOG_MAP_H`, and the routine branch
indexes `routines[idx][execution]`, which panics when `execution` is not
below `CMPLOG_MAP_RTN_H`. -/
def CmpLogMap.values_of (m : CmpLogMap) (idx : Fin CMPLOG_MAP_W) (execution : Nat) :
    DecodeResult :=
  if (m.headers idx).kind.val = CMPLOG_KIND_INS then
    let shape := (m.headers idx).shape.val
    if shape = 0 then
      if _h : execution < CMPLOG_MAP_H then
        .ok (some (.U8 (⟨m.op0 idx execution % 256, by omega⟩,
          ⟨m.op1 idx execution % 256, by omega⟩, m.opFlag idx execution == 1)))
      else .panicked
    else if shape = 1 then
      if _h : execution < CMPLOG_MAP_H then
        .ok (some (.U16 (⟨m.op0 idx execution % 65536, by omega⟩,
          ⟨m.op1 idx execution % 65536, by omega⟩, m.opFlag idx execution == 1)))
      else .panicked
    else if shape = 3 then
      if _h : execution < CMPLOG_MAP_H then
        .ok (some (.U32 (⟨m.op0 idx execution % 4294967296, by omega⟩,
          ⟨m.op1 idx execution % 4294967296, by omega⟩, m.opFlag idx execution == 1)))
      else .panicked
    else if shape = 7 then
      if _h : execution < CMPLOG_MAP_H then
        .ok (some (.U64 (⟨m.op0 idx execution, readLE64_lt _ _⟩,
          ⟨m.op1 idx execution, readLE64_lt _ _⟩, m.opFlag idx execution == 1)))
      else .panicked
    else if shape = 15 ∨ shape = 31 ∨ shape = 63 then
      .ok none
    else
      .panicked
  else
    if _h : execution < CMPLOG_MAP_RTN_H then
      .ok (some (.Bytes
        (CmplogBytes.from_buf_and_len (m.rtn0 idx execution) ⟨CMPLOG_RTN_LEN % 256, by omega⟩,
         CmplogBytes.from_buf_and_len (m.rtn1 idx execution) ⟨CMPLOG_RTN_LEN % 256, by omega⟩)))
    else .panicked

/-- `CmpMap::reset` for `CmpLogMap`: overwrite every header with the zero
header, leave the payload untouched, return `Ok(())`. -/
def CmpLogMap.reset (m : CmpLogMap) : CmpLogMap × Except String Unit :=
  ({ m with headers := fun _ => { hits := 0, shape := 0, kind := 0 } }, .ok ())

/-- Modelled from the spec: `AflppCmpLogHeader` (imported here from the
`libafl` observers module, which is not part of the staged sources) packs
the same three header values into a bit-field, per the AFL++ wire ABI:
a 16-bit word holding `hits` in bits 0..=5, `shape` in bits 6..=10, the
kind (`type_`) in bit 11 and an attribute nibble in bits 12..=15. -/
structure AflppCmpLogHeader where
  raw : U16
deriving DecidableEq

/-- `AflppCmpLogHeader::new_with_raw_value`. -/
def AflppCmpLogHeader.new_with_raw_value (v : U16) : AflppCmpLogHeader :=
  ⟨v⟩

/-- The `hits` bit-field (bits 0..=5). -/
def AflppCmpLogHeader.hits (h : AflppCmpLogHeader) : Nat :=
  h.raw.val % 64

/-- The `shape` bit-field (bits 6..=10). -/
def AflppCmpLogHeader.shape (h : AflppCmpLogHeader) : Nat :=
  h.raw.val / 64 % 32

/-- The `type_` bit-field (bit 11), the site's kind. -/
def AflppCmpLogHeader.type_ (h : AflppCmpLogHeader) : Nat :=
  h.raw.val / 2048 % 2

/-- The wire map (`AflppCmpLogMap`): one packed header per site plus the
`AflppCmpLogVals` union payload, embedded as 2304 bytes per site
(= `CMPLOG_MAP_H` extended operand records of 72 bytes
= `CMPLOG_MAP_RTN_EXTENDED_H` routine byte-pair records of 72 bytes). -/
structure AflppCmpLogMap where
  headers : Fin CMPLOG_MAP_W → AflppCmpLogHeader
  vals : Fin CMPLOG_MAP_W → Fin aflppSiteBytes → U8

/-- Field `v0` of `vals.operands[idx][execution]`: the low 64-bit limb of
the first operand, at byte offset `execution * 72`. -/
def AflppCmpLogMap.opV0 (m : AflppCmpLogMap) (idx : Fin CMPLOG_MAP_W)
    (execution : Nat) : Nat :=
  readLE64 (m.vals idx) (execution * 72)

/-- Field `v1` of `vals.operands[idx][execution]`: the low 64-bit limb of
the second operand, at byte offset `execution * 72 + 32` (after `v0`,
`v0_128`, `v0_256_0`, `v0_256_1`). -/
def AflppCmpLogMap.opV1 (m : AflppCmpLogMap) (idx : Fin CMPLOG_MAP_W)
    (execution : Nat) : Nat :=
  readLE64 (m.vals idx) (execution * 72 + 32)

/-- Buffer `v0` of `vals.fn_operands[idx][execution]`: 32 bytes at offset
`execution * 72`. -/
def AflppCmpLogMap.fnV0 (m : AflppCmpLogMap) (idx : Fin CMPLOG_MAP_W)
    (execution : Nat) : Fin 32 → U8 :=
  fun i => getByte (m.vals idx) (execution * 72 + i.val)

/-- Buffer `v1` of `vals.fn_operands[idx][execution]`: 32 bytes at offset
`execution * 72 + 32`. -/
def AflppCmpLogMap.fnV1 (m : AflppCmpLogMap) (idx : Fin CMPLOG_MAP_W)
    (execution : Nat) : Fin 32 → U8 :=
  fun i => getByte (m.vals idx) (execution * 72 + 32 + i.val)

/-- Field `v0_len` of `vals.fn_operands[idx][execution]`: the length byte at
offset `execution * 72 + 64`. -/
def AflppCmpLogMap.fnV0Len (m : AflppCmpLogMap) (idx : Fin CMPLOG_MAP_W)
    (execution : Nat) : Nat :=
  (getByte (m.vals idx) (execution * 72 + 64)).val

/-- Field `v1_len` of `vals.fn_operands[idx][execution]`: the length byte at
offset `execution * 72 + 65`. -/
def AflppCmpLogMap.fnV1Len (m : AflppCmpLogMap) (idx : Fin CMPLOG_MAP_W)
    (execution : Nat) : Nat :=
  (getByte (m.vals idx) (execution * 72 + 65)).val

/-- `CmpMap::executions_for` for `AflppCmpLogMap`: the `hits` bit-field. -/
def AflppCmpLogMap.executions_for (m : AflppCmpLogMap) (idx : Fin CMPLOG_MAP_W) : Nat :=
  (m.headers idx).hits

/-- `CmpMap::usable_executions_for` for `AflppCmpLogMap`.  Note the routine
branch caps at `CMPLOG_MAP_RTN_H`, exactly as the source does. -/
def AflppCmpLogMap.usable_executions_for (m : AflppCmpLogMap)
    (idx : Fin CMPLOG_MAP_W) : Nat :=
  if (m.headers idx).type_ = CMPLOG_KIND_INS then
    if m.executions_for idx < CMPLOG_MAP_H then m.executions_for idx
    else CMPLOG_MAP_H
  else
    if m.executions_for idx < CMPLOG_MAP_RTN_H then m.executions_for idx
    else CMPLOG_MAP_RTN_H

/-- `CmpMap::values_of` for `AflppCmpLogMap`.  The operand arms index
`operands[idx][execution]` (bound `CMPLOG_MAP_H`), the routine branch
indexes `fn_operands[idx][execution]` (bound `CMPLOG_MAP_RTN_EXTENDED_H`)
and masks the top bit off both length bytes (`& (0x80 - 1)`); the equality
flag of instruction results is always `false`. -/
def AflppCmpLogMap.values_of (m : AflppCmpLogMap) (idx : Fin CMPLOG_MAP_W)
    (execution : Nat) : DecodeResult :=
  if (m.headers idx).type_ = CMPLOG_KIND_INS then
    let shape := (m.headers idx).shape
    if shape = 0 then
      if _h : execution < CMPLOG_MAP_H then
        .ok (some (.U8 (⟨m.opV0 idx execution % 256, by omega⟩,
          ⟨m.opV1 idx execution % 256, by omega⟩, false)))
      else .panicked
    else if shape = 1 then
      if _h : execution < CMPLOG_MAP_H then
        .ok (some (.U16 (⟨m.opV0 idx execution % 65536, by omega⟩,
          ⟨m.opV1 idx execution % 65536, by omega⟩, false)))
      else .panicked
    else if shape = 3 then
      if _h : execution < CMPLOG_MAP_H then
        .ok (some (.U32 (⟨m.opV0 idx execution % 4294967296, by omega⟩,
          ⟨m.opV1 idx execution % 4294967296, by omega⟩, false)))
      else .panicked
    else if shape = 7 then
      if _h : execution < CMPLOG_MAP_H then
        .ok (some (.U64 (⟨m.opV0 idx execution, readLE64_lt _ _⟩,
          ⟨m.opV1 idx execution, readLE64_lt _ _⟩, false)))
      else .panicked
    else if shape = 15 ∨ shape = 31 ∨ shape = 63 then
      .ok none
    else
      .panicked
  else
    if _h : execution < CMPLOG_MAP_RTN_EXTENDED_H then
      .ok (some (.Bytes
        (CmplogBytes.from_buf_and_len (m.fnV0 idx execution)
          ⟨m.fnV0Len idx execution % 128, by omega⟩,
         CmplogBytes.from_buf_and_len (m.fnV1 idx execution)
          ⟨m.fnV1Len idx execution % 128, by omega⟩)))
    else .panicked

/-- `CmpMap::reset` for `AflppCmpLogMap`: fill the headers with the raw-zero
header, leave the payload untouched, return `Ok(())`. -/
def AflppCmpLogMap.reset (m : AflppCmpLogMap) : AflppCmpLogMap × Except String Unit :=
  ({ m with headers := fun _ => AflppCmpLogHeader.new_with_raw_value 0 }, .ok ())

/-- `Serialize for AflppCmpLogMap`: the raw memory image of the struct, one
byte per position — first the `2 * CMPLOG_MAP_W` header bytes (each 16-bit
header little-endian), then the payload union, site-major.  Positions past
the image are 0. -/
def AflppCmpLogMap.serializeByte (m : AflppCmpLogMap) (pos : Nat) : U8 :=
  if h : pos < 2 * CMPLOG_MAP_W then
    if pos % 2 = 0 then
      ⟨(m.headers ⟨pos / 2, by omega⟩).raw.val % 256, by omega⟩
    else
      ⟨(m.headers ⟨pos / 2, by omega⟩).raw.val / 256 % 256, by omega⟩
  else
    if h2 : (pos - 2 * CMPLOG_MAP_W) / aflppSiteBytes < CMPLOG_MAP_W then
      m.vals ⟨(pos - 2 * CMPLOG_MAP_W) / aflppSiteBytes, h2⟩
        ⟨(pos - 2 * CMPLOG_MAP_W) % aflppSiteBytes, Nat.mod_lt _ (by decide)⟩
    else 0

/-- `Deserialize for AflppCmpLogMap`: read the exact byte image back into
the structure, without reinterpreting individual fields. -/
def AflppCmpLogMap.deserializeBytes (b : Nat → U8) : AflppCmpLogMap where
  headers := fun i =>
    ⟨⟨(b (2 * i.val)).val + 256 * (b (2 * i.val + 1)).val, by
      have h0 := (b (2 * i.val)).isLt
      have h1 := (b (2 * i.val + 1)).isLt
      omega⟩⟩
  vals := fun i j => b (2 * CMPLOG_MAP_W + aflppSiteBytes * i.val + j.val)

/-- The AFL++ `cmpfn_operands` struct (`AflppCmpLogFnOperands`): two 32-byte
buffers, two length bytes, six unused bytes. -/
structure AflppCmpLogFnOperands where
  v0 : Fin 32 → U8
  v1 : Fin 32 → U8
  v0_len : U8
  v1_len : U8
  unused : Fin 6 → U8
deriving DecidableEq

/-- `AflppCmpLogFnOperands::new`: reads both slice lengths as `u8`, then
copies each slice into a 32-byte array with `copy_from_slice`, which panics
unless the slice length is exactly 32; `none` embeds that panic. -/
def AflppCmpLogFnOperands.new (v0 v1 : List U8) : Option AflppCmpLogFnOperands :=
  if h : v0.length = 32 ∧ v1.length = 32 then
    some { v0 := fun i => v0.get (Fin.cast h.1.symm i)
           v1 := fun i => v1.get (Fin.cast h.2.symm i)
           v0_len := ⟨v0.length % 256, by omega⟩
           v1_len := ⟨v1.length % 256, by omega⟩
           unused := fun _ => 0 }
  else none

/-- `AflppCmpLogFnOperands::set_v0`: stores the slice length as `u8`, then
`copy_from_slice` into the 32-byte array, panicking (`none`) unless the
slice length is exactly 32. -/
def AflppCmpLogFnOperands.set_v0 (s : AflppCmpLogFnOperands) (v0 : List U8) :
    Option AflppCmpLogFnOperands :=
  if h : v0.length = 32 then
    some { s with
           v0_len := ⟨v0.length % 256, by omega⟩
           v0 := fun i => v0.get (Fin.cast h.symm i) }
  else none

/-- `AflppCmpLogFnOperands::set_v1`: as `set_v0`, for the right side. -/
def AflppCmpLogFnOperands.set_v1 (s : AflppCmpLogFnOperands) (v1 : List U8) :
    Option AflppCmpLogFnOperands :=
  if h : v1.length = 32 then
    some { s with
           v1_len := ⟨v1.length % 256, by omega⟩
           v1 := fun i => v1.get (Fin.cast h.symm i) }
  else none

/-- Statement-side rendering of the spec's `capacity_for(kind)`:
`CMPLOG_MAP_H` slots for instruction sites, `CMPLOG_MAP_RTN_H` slots for
routine sites.  This follows the spec's words, to be compared with the
branches of the two `usable_executions_for` implementations. -/
def specCapacityFor (kind : Nat) : Nat :=
  if kind = CMPLOG_KIND_INS then CMPLOG_MAP_H else CMPLOG_MAP_RTN_H

/-- Statement-side rendering of the spec's width dispatch: a comparison
value of `w` bytes per operand (valid for `w` in 1/2/4/8, no value
otherwise), each operand truncated to `w` bytes. -/
def specWidthValue (w v0 v1 : Nat) (eq : Bool) : Option CmpValues :=
  if w = 1 then
    some (.U8 (⟨v0 % 256, by omega⟩, ⟨v1 % 256, by omega⟩, eq))
  else if w = 2 then
    some (.U16 (⟨v0 % 65536, by omega⟩, ⟨v1 % 65536, by omega⟩, eq))
  else if w = 4 then
    some (.U32 (⟨v0 % 4294967296, by omega⟩, ⟨v1 % 4294967296, by omega⟩, eq))
  else if w = 8 then
    some (.U64 (⟨v0 % 18446744073709551616, by omega⟩,
      ⟨v1 % 18446744073709551616, by omega⟩, eq))
  else none

/-- Wire map for the C1 counterexample: every site's packed header has raw
value 2068 = 20 + 2048, i.e. 20 hits, shape 0 and the routine kind bit set;
the payload is all zero. -/
def exC1 : AflppCmpLogMap where
  headers := fun _ => ⟨⟨2068, by decide⟩⟩
  vals := fun _ _ => 0

/-- C1 counterexample: at a routine-kind site with 20 recorded hits, the
wire map's `usable_executions_for` returns 12 (= `CMPLOG_MAP_RTN_H`), not
`min(20, CMPLOG_MAP_RTN_EXTENDED_H) = 20` as the claim states. -/
theorem claim_C1_counterexample :
    (exC1.headers ⟨0, by decide⟩).type_ = CMPLOG_KIND_RTN ∧
    exC1.executions_for ⟨0, by decide⟩ = 20 ∧
    exC1.usable_executions_for ⟨0, by decide⟩ ≠
      min (exC1.executions_for ⟨0, by decide⟩) CMPLOG_MAP_RTN_EXTENDED_H := by
  decide

/-- C1 (amended): for every wire-map site, `usable_executions_for` is
`min(executions_for, CMPLOG_MAP_RTN_H)` when the recorded kind is ROUTINE,
and `min(executions_for, CMPLOG_MAP_H)` when it is INSTRUCTION. -/
theorem claim_C1_usable_capacity :
    ∀ (m : AflppCmpLogMap) (idx : Fin CMPLOG_MAP_W),
      ((m.headers idx).type_ = CMPLOG_KIND_RTN →
        m.usable_executions_for idx =
          min (m.executions_for idx) CMPLOG_MAP_RTN_H) ∧
      ((m.headers idx).type_ = CMPLOG_KIND_INS →
        m.usable_executions_for idx =
          min (m.executions_for idx) CMPLOG_MAP_H) := by
  intro m idx
  constructor
  · intro h
    have h' : (m.headers idx).type_ = 1 := h
    unfold AflppCmpLogMap.usable_executions_for
    rw [if_neg (by rw [h']; decide)]
    split <;> omega
  · intro h
    unfold AflppCmpLogMap.usable_executions_for
    rw [if_pos h]
    split <;> omega

/-- C1 witness: both branches of the amended claim evaluated on `exC1`
(routine site with 20 hits) and on the all-zero instruction header. -/
theorem claim_C1_usable_capacity_witness :
    exC1.usable_executions_for ⟨0, by decide⟩ =
      min (exC1.executions_for ⟨0, by decide⟩) CMPLOG_MAP_RTN_H :=
  (claim_C1_usable_capacity exC1 ⟨0, by decide⟩).1 (by decide)

/-- C7: for either map and any starting state, `reset` overwrites every
header with the all-zero header (so `executions_for` is 0 at every site
afterwards, and for the wire header the shape and kind fields are 0 too),
leaves every payload byte unchanged, returns `Ok`, and a second consecutive
`reset` yields the identical state. -/
theorem claim_C7_reset_frame :
    ∀ (m : CmpLogMap) (mw : AflppCmpLogMap),
      (m.reset.1.headers = (fun _ => ⟨0, 0, 0⟩) ∧
        (∀ idx, m.reset.1.executions_for idx = 0) ∧
        m.reset.1.vals = m.vals ∧
        m.reset.2 = Except.ok () ∧
        m.reset.1.reset = m.reset) ∧
      (mw.reset.1.headers = (fun _ => AflppCmpLogHeader.new_with_raw_value 0) ∧
        (∀ idx, mw.reset.1.executions_for idx = 0) ∧
        (∀ idx, (mw.reset.1.headers idx).shape = 0 ∧
          (mw.reset.1.headers idx).type_ = 0) ∧
        mw.reset.1.vals = mw.vals ∧
        mw.reset.2 = Except.ok () ∧
        mw.reset.1.reset = mw.reset) := by
  intro m mw
  refine ⟨⟨rfl, fun _ => rfl, rfl, rfl, rfl⟩,
    ⟨rfl, fun _ => ?_, fun _ => ⟨?_, ?_⟩, rfl, rfl, rfl⟩⟩
  · show (0 : U16).val % 64 = 0
    decide
  · show (0 : U16).val / 64 % 32 = 0
    decide
  · show (0 : U16).val / 2048 % 2 = 0
    decide

/-- C8: for either map, every site and every header state,
`usable_executions_for` is at most the capacity for the site's kind, and is
no larger than `executions_for` whenever that count is below capacity. -/
theorem claim_C8_capacity_monotonicity :
    ∀ (m : CmpLogMap) (mw : AflppCmpLogMap) (idx : Fin CMPLOG_MAP_W),
      (m.usable_executions_for idx ≤ specCapacityFor (m.headers idx).kind.val ∧
        (m.executions_for idx < specCapacityFor (m.headers idx).kind.val →
          m.usable_executions_for idx ≤ m.executions_for idx)) ∧
      (mw.usable_executions_for idx ≤ specCapacityFor (mw.headers idx).type_ ∧
        (mw.executions_for idx < specCapacityFor (mw.headers idx).type_ →
          mw.usable_executions_for idx ≤ mw.executions_for idx)) := by
  intro m mw idx
  constructor
  · by_cases hk : (m.headers idx).kind.val = CMPLOG_KIND_INS
    · simp only [CmpLogMap.usable_executions_for, specCapacityFor, if_pos hk]
      constructor
      · split <;> omega
      · intro _
        split <;> omega
    · simp only [CmpLogMap.usable_executions_for, specCapacityFor, if_neg hk]
      constructor
      · split <;> omega
      · intro _
        split <;> omega
  · by_cases hk : (mw.headers idx).type_ = CMPLOG_KIND_INS
    · simp only [AflppCmpLogMap.usable_executions_for, specCapacityFor, if_pos hk]
      constructor
      · split <;> omega
      · intro _
        split <;> omega
    · simp only [AflppCmpLogMap.usable_executions_for, specCapacityFor, if_neg hk]
      constructor
      · split <;> omega
      · intro _
        split <;> omega

/-- C8 witness: the bound evaluated on `exC1`, whose site 0 is a routine
site with 20 hits, and 12 is indeed at most `capacity_for(ROUTINE)` = 12. -/
theorem claim_C8_capacity_monotonicity_witness :
    exC1.usable_executions_for ⟨0, by decide⟩ ≤
      specCapacityFor (exC1.headers ⟨0, by decide⟩).type_ :=
  (claim_C8_capacity_monotonicity
    ⟨fun _ => ⟨0, 0, 0⟩, fun _ _ => 0⟩ exC1 ⟨0, by decide⟩).2.1

/-- Compact map recording, at site 3, one 32-bit instruction comparison
(shape 3) of operands 1000 and 1000 with the is-equal flag set: the header
is hits 1, shape 3, kind INSTRUCTION, and the payload bytes hold the two
little-endian `u64` values 1000 (= 232 + 3 * 256) and the flag byte. -/
def exC2 : CmpLogMap where
  headers := fun i => if i.val = 3 then ⟨1, 3, 0⟩ else ⟨0, 0, 0⟩
  vals := fun i j =>
    if i.val = 3 then
      if j.val = 0 ∨ j.val = 8 then 232
      else if j.val = 1 ∨ j.val = 9 then 3
      else if j.val = 16 then 1 else 0
    else 0

/-- Compact map recording, at site 3, one 8-bit instruction comparison
(shape 0) of operands 8 and 10 with the is-equal flag clear. -/
def exC2b : CmpLogMap where
  headers := fun i => if i.val = 3 then ⟨1, 0, 0⟩ else ⟨0, 0, 0⟩
  vals := fun i j =>
    if i.val = 3 then
      if j.val = 0 then 8 else if j.val = 8 then 10 else 0
    else 0

/-- C2 counterexample: at an instruction site of shape 3 the compact map
decodes a 4-byte value (`U32`), not one of width `2^3 = 8` bytes as the
claim's formula states: the decoded result differs from the claimed
`specWidthValue (2 ^ shape) ...` at this concrete input. -/
theorem claim_C2_counterexample :
    (exC2.headers ⟨3, by decide⟩).kind.val = CMPLOG_KIND_INS ∧
    (exC2.headers ⟨3, by decide⟩).shape.val = 3 ∧
    0 < exC2.usable_executions_for ⟨3, by decide⟩ ∧
    exC2.values_of ⟨3, by decide⟩ 0 ≠
      .ok (specWidthValue (2 ^ (exC2.headers ⟨3, by decide⟩).shape.val)
        (exC2.op0 ⟨3, by decide⟩ 0) (exC2.op1 ⟨3, by decide⟩ 0)
        (exC2.opFlag ⟨3, by decide⟩ 0 == 1)) := by
  decide

/-- C2 (amended): for the compact map, at every INSTRUCTION site of shape
`s` in 0/1/3/7 and every slot below `usable_executions_for`, `values_of`
returns `Some` of the comparison value of width `s + 1` bytes (1/2/4/8)
whose operands are the stored raw `u64` operands truncated to that width,
with the is-equal flag true exactly when the stored flag byte equals 1. -/
theorem claim_C2_compact_instruction_decode :
    ∀ (m : CmpLogMap) (idx : Fin CMPLOG_MAP_W) (execution : Nat),
      (m.headers idx).kind.val = CMPLOG_KIND_INS →
      execution < m.usable_executions_for idx →
      ((m.headers idx).shape.val = 0 ∨ (m.headers idx).shape.val = 1 ∨
        (m.headers idx).shape.val = 3 ∨ (m.headers idx).shape.val = 7) →
      m.values_of idx execution =
        .ok (specWidthValue ((m.headers idx).shape.val + 1)
          (m.op0 idx execution) (m.op1 idx execution)
          (m.opFlag idx execution == 1)) := by
  intro m idx execution hk hu hs
  have hH : execution < CMPLOG_MAP_H := by
    unfold CmpLogMap.usable_executions_for at hu
    rw [if_pos hk] at hu
    split at hu <;> omega
  have h64 : m.op0 idx execution < 18446744073709551616 := readLE64_lt _ _
  have h64' : m.op1 idx execution < 18446744073709551616 := readLE64_lt _ _
  rcases hs with h | h | h | h <;>
    simp only [CmpLogMap.values_of, specWidthValue, if_pos hk, h, dif_pos hH] <;>
    norm_num <;>
    (constructor <;> omega)

/-- C2 witness: the amended claim at the two round-trip examples — the
32-bit recording decodes (to `U32 (1000, 1000, true)`), and the 8-bit
recording of `(8, 10, false)` decodes to `U8 (8, 10, false)`. -/
theorem claim_C2_compact_instruction_decode_witness :
    exC2.values_of ⟨3, by decide⟩ 0 =
      .ok (specWidthValue ((exC2.headers ⟨3, by decide⟩).shape.val + 1)
        (exC2.op0 ⟨3, by decide⟩ 0) (exC2.op1 ⟨3, by decide⟩ 0)
        (exC2.opFlag ⟨3, by decide⟩ 0 == 1)) ∧
    exC2.values_of ⟨3, by decide⟩ 0 = .ok (some (.U32 (1000, 1000, true))) ∧
    exC2b.values_of ⟨3, by decide⟩ 0 = .ok (some (.U8 (8, 10, false))) := by
  refine ⟨claim_C2_compact_instruction_decode exC2 ⟨3, by decide⟩ 0 (by decide)
    (by decide) (.inr (.inr (.inl (by decide)))), by decide, ?_⟩
  rw [claim_C2_compact_instruction_decode exC2b ⟨3, by decide⟩ 0 (by decide)
    (by decide) (.inl (by decide))]
  decide

/-- Wire map recording, at site 5, one 16-bit instruction comparison:
packed header raw 65 = 1 hit + shape 1 (bit 6), kind bit clear; the
extended operand record holds v0 = 4660 and v1 = 22136 in the low limbs. -/
def exC3 : AflppCmpLogMap where
  headers := fun i => if i.val = 5 then ⟨⟨65, by decide⟩⟩ else ⟨⟨0, by decide⟩⟩
  vals := fun i j =>
    if i.val = 5 then
      if j.val = 0 then 52 else if j.val = 1 then 18
      else if j.val = 32 then 120 else if j.val = 33 then 86 else 0
    else 0

/-- C3: for the wire map, at every INSTRUCTION site of shape `s` in 0/1/3/7
and every slot below `usable_executions_for`, `values_of` returns `Some` of
the width-dispatched value (width `s + 1` bytes) whose operands are the low
64-bit limbs of the extended operand record truncated to that width, with
the equality flag always `false`. -/
theorem claim_C3_aflpp_instruction_decode :
    ∀ (m : AflppCmpLogMap) (idx : Fin CMPLOG_MAP_W) (execution : Nat),
      (m.headers idx).type_ = CMPLOG_KIND_INS →
      execution < m.usable_executions_for idx →
      ((m.headers idx).shape = 0 ∨ (m.headers idx).shape = 1 ∨
        (m.headers idx).shape = 3 ∨ (m.headers idx).shape = 7) →
      m.values_of idx execution =
        .ok (specWidthValue ((m.headers idx).shape + 1)
          (m.opV0 idx execution) (m.opV1 idx execution) false) := by
  intro m idx execution hk hu hs
  have hH : execution < CMPLOG_MAP_H := by
    unfold AflppCmpLogMap.usable_executions_for at hu
    rw [if_pos hk] at hu
    split at hu <;> omega
  have h64 : m.opV0 idx execution < 18446744073709551616 := readLE64_lt _ _
  have h64' : m.opV1 idx execution < 18446744073709551616 := readLE64_lt _ _
  rcases hs with h | h | h | h <;>
    simp only [AflppCmpLogMap.values_of, specWidthValue, if_pos hk, h, dif_pos hH] <;>
    norm_num <;>
    (constructor <;> omega)

/-- C3 witness: the claim applied to `exC3`, whose site 5 decodes to
`U16 (4660, 22136, false)`. -/
theorem claim_C3_aflpp_instruction_decode_witness :
    exC3.values_of ⟨5, by decide⟩ 0 =
      .ok (specWidthValue ((exC3.headers ⟨5, by decide⟩).shape + 1)
        (exC3.opV0 ⟨5, by decide⟩ 0) (exC3.opV1 ⟨5, by decide⟩ 0) false) ∧
    exC3.values_of ⟨5, by decide⟩ 0 = .ok (some (.U16 (4660, 22136, false))) :=
  ⟨claim_C3_aflpp_instruction_decode exC3 ⟨5, by decide⟩ 0 (by decide)
    (by decide) (.inr (.inl (by decide))), by decide⟩

/-- Compact map whose site 0 header records kind ROUTINE with shape byte 15
and one hit: the routine decoder ignores the shape entirely. -/
def exC4 : CmpLogMap where
  headers := fun _ => ⟨1, 15, 1⟩
  vals := fun _ _ => 0

/-- Compact map whose site 0 header records kind INSTRUCTION, shape 31, one
hit. -/
def exC4c : CmpLogMap where
  headers := fun _ => ⟨1, 31, 0⟩
  vals := fun _ _ => 0

/-- Wire map whose site 0 packed header records kind INSTRUCTION, shape 15,
one hit (raw 961 = 1 + 15 * 64). -/
def exC4w : AflppCmpLogMap where
  headers := fun _ => ⟨⟨961, by decide⟩⟩
  vals := fun _ _ => 0

/-- C4 counterexample: a site whose recorded shape is 15 but whose kind is
ROUTINE decodes to `Some` of a byte-pair value, not `None` — the claim as
stated (quantifying over every site with shape 15/31/63 regardless of kind)
fails at this input. -/
theorem claim_C4_counterexample :
    (exC4.headers ⟨0, by decide⟩).shape.val = 15 ∧
    0 < exC4.usable_executions_for ⟨0, by decide⟩ ∧
    exC4.values_of ⟨0, by decide⟩ 0 ≠ .ok none := by
  decide

/-- C4 (amended): for every site of either map whose kind is INSTRUCTION
and whose recorded shape is 15, 31 or 63, and every slot below
`usable_executions_for`, `values_of` returns `None` — silently, never a
panic or error. -/
theorem claim_C4_unsupported_width :
    ∀ (m : CmpLogMap) (mw : AflppCmpLogMap) (idx1 idx2 : Fin CMPLOG_MAP_W)
      (e1 e2 : Nat),
      ((m.headers idx1).kind.val = CMPLOG_KIND_INS →
        ((m.headers idx1).shape.val = 15 ∨ (m.headers idx1).shape.val = 31 ∨
          (m.headers idx1).shape.val = 63) →
        e1 < m.usable_executions_for idx1 →
        m.values_of idx1 e1 = .ok none) ∧
      ((mw.headers idx2).type_ = CMPLOG_KIND_INS →
        ((mw.headers idx2).shape = 15 ∨ (mw.headers idx2).shape = 31 ∨
          (mw.headers idx2).shape = 63) →
        e2 < mw.usable_executions_for idx2 →
        mw.values_of idx2 e2 = .ok none) := by
  intro m mw idx1 idx2 e1 e2
  constructor
  · intro hk hs _
    rcases hs with h | h | h <;>
      simp only [CmpLogMap.values_of, if_pos hk, h] <;> norm_num
  · intro hk hs _
    rcases hs with h | h | h <;>
      simp only [AflppCmpLogMap.values_of, if_pos hk, h] <;> norm_num

/-- C4 witness: the amended claim evaluated on an instruction site of shape
31 in the compact map and one of shape 15 in the wire map. -/
theorem claim_C4_unsupported_width_witness :
    exC4c.values_of ⟨0, by decide⟩ 0 = .ok none ∧
    exC4w.values_of ⟨0, by decide⟩ 0 = .ok none :=
  ⟨(claim_C4_unsupported_width exC4c exC4w ⟨0, by decide⟩ ⟨0, by decide⟩ 0 0).1
      (by decide) (.inr (.inl (by decide))) (by decide),
   (claim_C4_unsupported_width exC4c exC4w ⟨0, by decide⟩ ⟨0, by decide⟩ 0 0).2
      (by decide) (.inl (by decide)) (by decide)⟩

/-- Compact map whose site 0 header records kind INSTRUCTION with the
invalid shape byte 5 and one hit. -/
def exC5c : CmpLogMap where
  headers := fun _ => ⟨1, 5, 0⟩
  vals := fun _ _ => 0

/-- Wire map whose site 0 packed header records kind INSTRUCTION, invalid
shape 5, one hit (raw 321 = 1 + 5 * 64). -/
def exC5w : AflppCmpLogMap where
  headers := fun _ => ⟨⟨321, by decide⟩⟩
  vals := fun _ _ => 0

/-- Compact map whose site 0 header records kind INSTRUCTION, shape 0, one
hit. -/
def exC5c2 : CmpLogMap where
  headers := fun _ => ⟨1, 0, 0⟩
  vals := fun _ _ => 0

/-- Wire map whose site 0 packed header records kind INSTRUCTION, shape 0,
one hit (raw 1). -/
def exC5w2 : AflppCmpLogMap where
  headers := fun _ => ⟨⟨1, by decide⟩⟩
  vals := fun _ _ => 0

/-- C5: for either map, at an INSTRUCTION site whose shape is not in
0/1/3/7/15/31/63 `values_of` panics (for every slot), and when the shape is
in that set the panic branch is unreachable for every slot below
`usable_executions_for`. -/
theorem claim_C5_fatal_shape :
    ∀ (m : CmpLogMap) (mw : AflppCmpLogMap) (idx1 idx2 : Fin CMPLOG_MAP_W)
      (e1 e2 : Nat),
      ((m.headers idx1).kind.val = CMPLOG_KIND_INS →
        (¬ ((m.headers idx1).shape.val = 0 ∨ (m.headers idx1).shape.val = 1 ∨
            (m.headers idx1).shape.val = 3 ∨ (m.headers idx1).shape.val = 7 ∨
            (m.headers idx1).shape.val = 15 ∨ (m.headers idx1).shape.val = 31 ∨
            (m.headers idx1).shape.val = 63) →
          m.values_of idx1 e1 = .panicked) ∧
        (((m.headers idx1).shape.val = 0 ∨ (m.headers idx1).shape.val = 1 ∨
            (m.headers idx1).shape.val = 3 ∨ (m.headers idx1).shape.val = 7 ∨
            (m.headers idx1).shape.val = 15 ∨ (m.headers idx1).shape.val = 31 ∨
            (m.headers idx1).shape.val = 63) →
          e1 < m.usable_executions_for idx1 →
          m.values_of idx1 e1 ≠ .panicked)) ∧
      ((mw.headers idx2).type_ = CMPLOG_KIND_INS →
        (¬ ((mw.headers idx2).shape = 0 ∨ (mw.headers idx2).shape = 1 ∨
            (mw.headers idx2).shape = 3 ∨ (mw.headers idx2).shape = 7 ∨
            (mw.headers idx2).shape = 15 ∨ (mw.headers idx2).shape = 31 ∨
            (mw.headers idx2).shape = 63) →
          mw.values_of idx2 e2 = .panicked) ∧
        (((mw.headers idx2).shape = 0 ∨ (mw.headers idx2).shape = 1 ∨
            (mw.headers idx2).shape = 3 ∨ (mw.headers idx2).shape = 7 ∨
            (mw.headers idx2).shape = 15 ∨ (mw.headers idx2).shape = 31 ∨
            (mw.headers idx2).shape = 63) →
          e2 < mw.usable_executions_for idx2 →
          mw.values_of idx2 e2 ≠ .panicked)) := by
  intro m mw idx1 idx2 e1 e2
  constructor
  · intro hk
    constructor
    · intro hbad
      have h0 : ¬ (m.headers idx1).shape.val = 0 := fun h => hbad (.inl h)
      have h1 : ¬ (m.headers idx1).shape.val = 1 := fun h => hbad (.inr (.inl h))
      have h3 : ¬ (m.headers idx1).shape.val = 3 :=
        fun h => hbad (.inr (.inr (.inl h)))
      have h7 : ¬ (m.headers idx1).shape.val = 7 :=
        fun h => hbad (.inr (.inr (.inr (.inl h))))
      have hw : ¬ ((m.headers idx1).shape.val = 15 ∨
          (m.headers idx1).shape.val = 31 ∨ (m.headers idx1).shape.val = 63) := by
        intro h
        rcases h with h | h | h
        · exact hbad (.inr (.inr (.inr (.inr (.inl h)))))
        · exact hbad (.inr (.inr (.inr (.inr (.inr (.inl h))))))
        · exact hbad (.inr (.inr (.inr (.inr (.inr (.inr h))))))
      simp only [CmpLogMap.values_of, if_pos hk, if_neg h0, if_neg h1, if_neg h3,
        if_neg h7, if_neg hw]
    · intro hs he
      have hH : e1 < CMPLOG_MAP_H := by
        unfold CmpLogMap.usable_executions_for at he
        rw [if_pos hk] at he
        split at he <;> omega
      rcases hs with h | h | h | h | h | h | h <;>
        simp only [CmpLogMap.values_of, if_pos hk, h, dif_pos hH] <;> simp
  · intro hk
    constructor
    · intro hbad
      have h0 : ¬ (mw.headers idx2).shape = 0 := fun h => hbad (.inl h)
      have h1 : ¬ (mw.headers idx2).shape = 1 := fun h => hbad (.inr (.inl h))
      have h3 : ¬ (mw.headers idx2).shape = 3 :=
        fun h => hbad (.inr (.inr (.inl h)))
      have h7 : ¬ (mw.headers idx2).shape = 7 :=
        fun h => hbad (.inr (.inr (.inr (.inl h))))
      have hw : ¬ ((mw.headers idx2).shape = 15 ∨
          (mw.headers idx2).shape = 31 ∨ (mw.headers idx2).shape = 63) := by
        intro h
        rcases h with h | h | h
        · exact hbad (.inr (.inr (.inr (.inr (.inl h)))))
        · exact hbad (.inr (.inr (.inr (.inr (.inr (.inl h))))))
        · exact hbad (.inr (.inr (.inr (.inr (.inr (.inr h))))))
      simp only [AflppCmpLogMap.values_of, if_pos hk, if_neg h0, if_neg h1,
        if_neg h3, if_neg h7, if_neg hw]
    · intro hs he
      have hH : e2 < CMPLOG_MAP_H := by
        unfold AflppCmpLogMap.usable_executions_for at he
        rw [if_pos hk] at he
        split at he <;> omega
      rcases hs with h | h | h | h | h | h | h <;>
        simp only [AflppCmpLogMap.values_of, if_pos hk, h, dif_pos hH] <;> simp

/-- C5 witness: shape 5 panics in both maps; shape 0 with one hit does not. -/
theorem claim_C5_fatal_shape_witness :
    exC5c.values_of ⟨0, by decide⟩ 0 = .panicked ∧
    exC5w.values_of ⟨0, by decide⟩ 0 = .panicked ∧
    exC5c2.values_of ⟨0, by decide⟩ 0 ≠ .panicked ∧
    exC5w2.values_of ⟨0, by decide⟩ 0 ≠ .panicked :=
  ⟨((claim_C5_fatal_shape exC5c exC5w ⟨0, by decide⟩ ⟨0, by decide⟩ 0 0).1
      (by decide)).1 (by decide),
   ((claim_C5_fatal_shape exC5c exC5w ⟨0, by decide⟩ ⟨0, by decide⟩ 0 0).2
      (by decide)).1 (by decide),
   ((claim_C5_fatal_shape exC5c2 exC5w2 ⟨0, by decide⟩ ⟨0, by decide⟩ 0 0).1
      (by decide)).2 (.inl (by decide)) (by decide),
   ((claim_C5_fatal_shape exC5c2 exC5w2 ⟨0, by decide⟩ ⟨0, by decide⟩ 0 0).2
      (by decide)).2 (.inl (by decide)) (by decide)⟩

/-- Wire map whose site 2 packed header records kind ROUTINE with one hit
(raw 2049 = 1 + 2048); the routine record's `v0_len` byte is 0x85 = 133
(top bit set over length 5) and its `v1_len` byte is 7. -/
def exC6 : AflppCmpLogMap where
  headers := fun i => if i.val = 2 then ⟨⟨2049, by decide⟩⟩ else ⟨⟨0, by decide⟩⟩
  vals := fun i j =>
    if i.val = 2 then
      if j.val = 64 then 133 else if j.val = 65 then 7 else 0
    else 0

/-- C6: for the wire map, at every ROUTINE site and slot below
`usable_executions_for`, `values_of` returns a byte-pair value whose
decoded lengths equal the stored length bytes with the top bit masked off
(`len % 128`, i.e. `len & 0x7F`). -/
theorem claim_C6_length_mask :
    ∀ (mw : AflppCmpLogMap) (idx : Fin CMPLOG_MAP_W) (e : Nat),
      (mw.headers idx).type_ = CMPLOG_KIND_RTN →
      e < mw.usable_executions_for idx →
      ∃ b0 b1, mw.values_of idx e = .ok (some (.Bytes (b0, b1))) ∧
        b0.len.val = mw.fnV0Len idx e % 128 ∧
        b1.len.val = mw.fnV1Len idx e % 128 := by
  intro mw idx e hk he
  have hk' : (mw.headers idx).type_ = 1 := hk
  have hne : ¬ (mw.headers idx).type_ = CMPLOG_KIND_INS := by
    rw [hk']
    decide
  have hR : e < CMPLOG_MAP_RTN_H := by
    unfold AflppCmpLogMap.usable_executions_for at he
    rw [if_neg hne] at he
    split at he <;> omega
  have hE : e < CMPLOG_MAP_RTN_EXTENDED_H := by
    have h12 : e < 12 := hR
    show e < 32
    omega
  unfold AflppCmpLogMap.values_of
  rw [if_neg hne, dif_pos hE]
  exact ⟨_, _, rfl, rfl, rfl⟩

/-- C6 witness: the claim at `exC6`, where the stored `v0_len` byte 0x85
decodes to length 5 and the `v1_len` byte 7 to length 7. -/
theorem claim_C6_length_mask_witness :
    (∃ b0 b1, exC6.values_of ⟨2, by decide⟩ 0 = .ok (some (.Bytes (b0, b1))) ∧
      b0.len.val = exC6.fnV0Len ⟨2, by decide⟩ 0 % 128 ∧
      b1.len.val = exC6.fnV1Len ⟨2, by decide⟩ 0 % 128) ∧
    exC6.fnV0Len ⟨2, by decide⟩ 0 = 133 ∧
    exC6.fnV0Len ⟨2, by decide⟩ 0 % 128 = 5 ∧
    exC6.fnV1Len ⟨2, by decide⟩ 0 % 128 = 7 :=
  ⟨claim_C6_length_mask exC6 ⟨2, by decide⟩ 0 (by decide) (by decide),
   by decide, by decide, by decide⟩

theorem serializeByte_at_header (m : AflppCmpLogMap) (i : Fin CMPLOG_MAP_W) :
    (m.serializeByte (2 * i.val)).val = (m.headers i).raw.val % 256 ∧
    (m.serializeByte (2 * i.val + 1)).val = (m.headers i).raw.val / 256 % 256 := by
  have hi := i.isLt
  constructor
  · unfold AflppCmpLogMap.serializeByte
    rw [dif_pos (show 2 * i.val < 2 * CMPLOG_MAP_W by omega)]
    rw [if_pos (show 2 * i.val % 2 = 0 by omega)]
    have hv : 2 * i.val / 2 = i.val := by omega
    simp only [hv, Fin.eta]
  · unfold AflppCmpLogMap.serializeByte
    rw [dif_pos (show 2 * i.val + 1 < 2 * CMPLOG_MAP_W by omega)]
    rw [if_neg (show ¬ (2 * i.val + 1) % 2 = 0 by omega)]
    have hv : (2 * i.val + 1) / 2 = i.val := by omega
    simp only [hv, Fin.eta]

theorem serializeByte_at_vals (m : AflppCmpLogMap) (i : Fin CMPLOG_MAP_W)
    (j : Fin aflppSiteBytes) :
    m.serializeByte (2 * CMPLOG_MAP_W + aflppSiteBytes * i.val + j.val) =
      m.vals i j := by
  have hi := i.isLt
  have hj := j.isLt
  unfold AflppCmpLogMap.serializeByte
  rw [dif_neg (show ¬ (2 * CMPLOG_MAP_W + aflppSiteBytes * i.val + j.val <
    2 * CMPLOG_MAP_W) by omega)]
  have hq : 2 * CMPLOG_MAP_W + aflppSiteBytes * i.val + j.val - 2 * CMPLOG_MAP_W =
      aflppSiteBytes * i.val + j.val := by omega
  simp only [hq]
  have hdiv : (aflppSiteBytes * i.val + j.val) / aflppSiteBytes = i.val := by
    rw [Nat.mul_add_div (by decide)]
    rw [Nat.div_eq_of_lt hj, Nat.add_zero]
  have hmod : (aflppSiteBytes * i.val + j.val) % aflppSiteBytes = j.val := by
    rw [Nat.mul_add_mod]
    exact Nat.mod_eq_of_lt hj
  rw [dif_pos (show (aflppSiteBytes * i.val + j.val) / aflppSiteBytes <
    CMPLOG_MAP_W by rw [hdiv]; exact hi)]
  simp only [hdiv, hmod, Fin.eta]

/-- C9: serializing a wire map to its raw fixed-size byte image and
deserializing that image yields the identical map — the same packed header
and the same payload byte at every site and offset. -/
theorem claim_C9_serialize_roundtrip :
    ∀ (m : AflppCmpLogMap),
      AflppCmpLogMap.deserializeBytes m.serializeByte = m := by
  intro m
  obtain ⟨hs, vs⟩ := m
  unfold AflppCmpLogMap.deserializeBytes
  congr 1
  · funext i
    have h1 : (AflppCmpLogMap.serializeByte ⟨hs, vs⟩ (2 * i.val)).val =
        ((hs i).raw).val % 256 := (serializeByte_at_header ⟨hs, vs⟩ i).1
    have h2 : (AflppCmpLogMap.serializeByte ⟨hs, vs⟩ (2 * i.val + 1)).val =
        ((hs i).raw).val / 256 % 256 := (serializeByte_at_header ⟨hs, vs⟩ i).2
    refine congrArg AflppCmpLogHeader.mk (Fin.ext ?_)
    show (AflppCmpLogMap.serializeByte ⟨hs, vs⟩ (2 * i.val)).val +
        256 * (AflppCmpLogMap.serializeByte ⟨hs, vs⟩ (2 * i.val + 1)).val =
      ((hs i).raw).val
    rw [h1, h2]
    have hr := ((hs i).raw).isLt
    omega
  · funext i j
    exact serializeByte_at_vals ⟨hs, vs⟩ i j

/-- A 32-byte all-zero slice. -/
def l32ex : List U8 := List.replicate 32 0

/-- A 1-byte slice, shorter than `CMPLOG_RTN_LEN`. -/
def shortEx : List U8 := [1]

/-- An all-zero routine operand record. -/
def exFnOps : AflppCmpLogFnOperands :=
  ⟨fun _ => 0, fun _ => 0, 0, 0, fun _ => 0⟩

/-- The record `new l32ex l32ex` builds: zero buffers, both lengths 32. -/
def rEx : AflppCmpLogFnOperands where
  v0 := fun i => l32ex.get (Fin.cast (by decide) i)
  v1 := fun i => l32ex.get (Fin.cast (by decide) i)
  v0_len := ⟨l32ex.length % 256, by decide⟩
  v1_len := ⟨l32ex.length % 256, by decide⟩
  unused := fun _ => 0

/-- C10: `AflppCmpLogFnOperands::new` (and `set_v0`/`set_v1`) succeeds
exactly when each input slice has length 32; on success the stored bytes
are the input bytes unchanged (no padding, no truncation) and the length
fields record the input length. -/
theorem claim_C10_fn_operands_new :
    ∀ (v0 v1 : List U8) (s : AflppCmpLogFnOperands),
      ((AflppCmpLogFnOperands.new v0 v1).isSome ↔
        (v0.length = 32 ∧ v1.length = 32)) ∧
      (∀ r, AflppCmpLogFnOperands.new v0 v1 = some r →
        (∀ i : Fin 32, r.v0 i = v0.getD i.val 0 ∧ r.v1 i = v1.getD i.val 0) ∧
        r.v0_len.val = v0.length ∧ r.v1_len.val = v1.length) ∧
      ((s.set_v0 v0).isSome ↔ v0.length = 32) ∧
      ((s.set_v1 v1).isSome ↔ v1.length = 32) := by
  intro v0 v1 s
  refine ⟨?_, ?_, ?_, ?_⟩
  · unfold AflppCmpLogFnOperands.new
    by_cases h : v0.length = 32 ∧ v1.length = 32
    · rw [dif_pos h]
      simp [h]
    · rw [dif_neg h]
      simp [h]
  · intro r hr
    unfold AflppCmpLogFnOperands.new at hr
    by_cases h : v0.length = 32 ∧ v1.length = 32
    · rw [dif_pos h] at hr
      injection hr with hr
      subst hr
      refine ⟨fun i => ⟨?_, ?_⟩, ?_, ?_⟩
      · have hi : i.val < v0.length := by
          have := i.isLt
          omega
        rw [List.getD_eq_getElem _ _ hi]
        rfl
      · have hi : i.val < v1.length := by
          have := i.isLt
          omega
        rw [List.getD_eq_getElem _ _ hi]
        rfl
      · show v0.length % 256 = v0.length
        omega
      · show v1.length % 256 = v1.length
        omega
    · rw [dif_neg h] at hr
      cases hr
  · unfold AflppCmpLogFnOperands.set_v0
    by_cases h : v0.length = 32
    · rw [dif_pos h]
      simp [h]
    · rw [dif_neg h]
      simp [h]
  · unfold AflppCmpLogFnOperands.set_v1
    by_cases h : v1.length = 32
    · rw [dif_pos h]
      simp [h]
    · rw [dif_neg h]
      simp [h]

/-- C10 witness: `new` succeeds on two 32-byte slices and records length
32; it panics (`none`) on a 1-byte slice, as does `set_v0`. -/
theorem claim_C10_fn_operands_new_witness :
    (AflppCmpLogFnOperands.new l32ex l32ex).isSome ∧
    ¬ (AflppCmpLogFnOperands.new shortEx l32ex).isSome ∧
    ¬ (exFnOps.set_v0 shortEx).isSome ∧
    rEx.v0_len.val = l32ex.length :=
  ⟨(claim_C10_fn_operands_new l32ex l32ex exFnOps).1.mpr (by decide),
   fun hsm =>
     absurd ((claim_C10_fn_operands_new shortEx l32ex exFnOps).1.mp hsm).1
       (by decide),
   fun hsm =>
     absurd ((claim_C10_fn_operands_new shortEx l32ex exFnOps).2.2.1.mp hsm)
       (by decide),
   ((claim_C10_fn_operands_new l32ex l32ex exFnOps).2.1 rEx rfl).2.1⟩

end LibAFLCmps
